import Mathlib

/-!
Shallow embedding of the caddy-auth-jwt key-resolution backends
(`pkg/backends/backend.go`), the Caddyfile token-validator configuration
parser, and `TokenValidatorOptions.Clone`, together with theorems settling
the specification claims about them.

Go maps are modelled as association lists with last-write-wins insertion,
Go strings as Lean strings (byte strings as `List Nat` where byte length
matters), `interface{}` values holding key material as a small sum type,
and fallible Go functions as `Except`.
-/

namespace CaddyAuthJwt

/-- Error values of the repository's error package, as far as the backends
use them, plus `signatureInvalid` standing for the crypto-level failure the
token library can produce downstream (never produced by the backends). -/
inductive JwtError where
  | invalidSecretLength
  | unexpectedSigningMethod (family : String) (alg : Option String)
  | unexpectedKID
  | noRSAKeyFound
  | jwksResponseKeysNotFound
  | jwksKeysParseFailed
  | jwksKeysNotFound
  | jwksInvalidKey (msg : String)
  | signatureInvalid
deriving DecidableEq, Repr

/-- Declared signing method of a parsed token (`token.Method` in jwt-go):
the HMAC family, the RSA family, or anything else (ECDSA, none, ...). -/
inductive SigningMethod where
  | hmac (alg : String)
  | rsa (alg : String)
  | other (alg : String)
deriving DecidableEq, Repr

/-- An RSA public key (`*rsa.PublicKey`), abstracted to its numeric
components; the backends never compute with them, only select and return
them. -/
structure RSAPublicKey where
  n : Nat
  e : Nat
deriving DecidableEq, Repr

/-- An RSA private key (`*rsa.PrivateKey`): its embedded public key plus
private material. -/
structure RSAPrivateKey where
  publicKey : RSAPublicKey
  d : Nat
deriving DecidableEq, Repr

/-- A value stored in the RSA backend's `secrets map[string]interface{}`:
an RSA private key, an RSA public key, or any other value (the `other`
constructor models every non-RSA `interface{}` entry, which the type
switch in `ProvideKey` falls through). -/
inductive KeyMaterial where
  | rsaPrivate (k : RSAPrivateKey)
  | rsaPublic (k : RSAPublicKey)
  | other
deriving DecidableEq, Repr

/-- Key material returned by a `ProvideKey` call (`interface{}` in Go):
either the symmetric secret bytes or an RSA public key. -/
inductive KeyValue where
  | bytes (s : List Nat)
  | rsaPub (k : RSAPublicKey)
deriving DecidableEq, Repr

/-- The parts of a parsed `*jwtlib.Token` that the backends read: the
signing-method object, the header's `alg` entry, and the header's `kid`
entry when it is present as a string (`none` covers both an absent `kid`
and a non-string one, which the type assertion in the Go code rejects the
same way). -/
structure Token where
  method : SigningMethod
  alg : Option String
  kid : Option String
deriving DecidableEq, Repr

/-- Insert into an association-list map with Go-map semantics: the new
binding replaces any existing binding for the same key. -/
def mapSet {α : Type} (m : List (String × α)) (k : String) (v : α) :
    List (String × α) :=
  m.filter (fun p => !(p.1 == k)) ++ [(k, v)]

/-- The reserved default key identifier (`var defaultKeyID = "0"`). -/
def defaultKeyID : String := "0"

/-- `SecretKeyTokenBackend` holds one symmetric secret, stored as bytes. -/
structure SecretKeyTokenBackend where
  secret : List Nat
deriving DecidableEq, Repr

/-- `NewSecretKeyTokenBackend`: rejects secrets shorter than 16 bytes,
otherwise stores the secret's bytes. -/
def NewSecretKeyTokenBackend (s : List Nat) :
    Except JwtError SecretKeyTokenBackend :=
  if s.length < 16 then .error .invalidSecretLength
  else .ok { secret := s }

/-- `SecretKeyTokenBackend.ProvideKey`: reject any non-HMAC signing method
with `ErrUnexpectedSigningMethod("HS", alg)`, otherwise return the secret. -/
def SecretKeyTokenBackend.ProvideKey (b : SecretKeyTokenBackend)
    (t : Token) : Except JwtError KeyValue :=
  match t.method with
  | .hmac _ => .ok (.bytes b.secret)
  | _ => .error (.unexpectedSigningMethod "HS" t.alg)

/-- `RSAKeyTokenBackend` holds the key store `secrets`. -/
structure RSAKeyTokenBackend where
  secrets : List (String × KeyMaterial)
deriving DecidableEq, Repr

/-- `NewRSAKeyTokenBackend`. -/
def NewRSAKeyTokenBackend (k : List (String × KeyMaterial)) :
    RSAKeyTokenBackend :=
  { secrets := k }

/-- `RSAKeyTokenBackend.ProvideKey`, following the Go control flow: reject
non-RSA methods; with a `kid`, look it up exactly (a found RSA private key
yields its public component, a found RSA public key is returned, anything
else — including an absent identifier — yields `ErrUnexpectedKID`);
without a `kid`, try the default identifier `"0"` and fail with
`ErrNoRSAKeyFound` when it holds no RSA key. -/
def RSAKeyTokenBackend.ProvideKey (b : RSAKeyTokenBackend) (t : Token) :
    Except JwtError KeyValue :=
  match t.method with
  | .rsa _ =>
    match t.kid with
    | some kid =>
      match b.secrets.lookup kid with
      | some (.rsaPrivate k) => .ok (.rsaPub k.publicKey)
      | some (.rsaPublic k) => .ok (.rsaPub k)
      | some .other => .error .unexpectedKID
      | none => .error .unexpectedKID
    | none =>
      match b.secrets.lookup defaultKeyID with
      | some (.rsaPrivate k) => .ok (.rsaPub k.publicKey)
      | some (.rsaPublic k) => .ok (.rsaPub k)
      | _ => .error .noRSAKeyFound
  | _ => .error (.unexpectedSigningMethod "RS" t.alg)

/-- One entry of a parsed JWKS document (`*oauth2.JwksKey` from the
external oauth2 package): its key identifier, the outcome of its external
`Validate()` call (`none` = valid) and the public key its external
`GetPublicKey()` yields. `Validate` and `GetPublicKey` live outside this
repository, so they are modelled as data carried by the entry. -/
structure JwksKey where
  KeyID : String
  validateErr : Option String
  publicKey : RSAPublicKey
deriving DecidableEq, Repr

/-- A fetched key-set document after the HTTP transport and top-level JSON
parse (both outside the core): either it lacks a top-level `keys` field,
or re-serialising / re-parsing the `keys` field failed, or it parsed to a
list of key entries. -/
inductive JwksDoc where
  | noKeysField
  | keysParseFailed
  | keysList (keys : List JwksKey)
deriving DecidableEq, Repr

/-- The validation loop at the end of `FetchKeysURL`: validate each entry
in order, failing the whole import with `ErrBackendOauthJwksInvalidKey` at
the first invalid one, otherwise store its public key under its key
identifier. -/
def fetchKeysLoop : List JwksKey → List (String × KeyMaterial) →
    Except JwtError (List (String × KeyMaterial))
  | [], secrets => .ok secrets
  | k :: rest, secrets =>
    match k.validateErr with
    | some e => .error (.jwksInvalidKey e)
    | none => fetchKeysLoop rest (mapSet secrets k.KeyID (.rsaPublic k.publicKey))

/-- `FetchKeysURL` after its network / top-level-JSON stage: fail when the
`keys` field is missing or unparsable, fail when the parsed key list is
empty, otherwise validate every entry and build the key store. -/
def FetchKeysURL (doc : JwksDoc) :
    Except JwtError (List (String × KeyMaterial)) :=
  match doc with
  | .noKeysField => .error .jwksResponseKeysNotFound
  | .keysParseFailed => .error .jwksKeysParseFailed
  | .keysList keys =>
    if keys.length < 1 then .error .jwksKeysNotFound
    else fetchKeysLoop keys []

/-- `TokenValidatorOptions` (config package): five validation flags, a
source address, a request-scoped metadata map (values abstracted to
strings), and the presence of a replacer and a logger (their contents are
external library state the core never inspects). -/
structure TokenValidatorOptions where
  ValidateSourceAddress : Bool
  SourceAddress : String
  ValidateBearerHeader : Bool
  ValidateMethodPath : Bool
  ValidateAccessListPathClaim : Bool
  ValidateAllowMatchAll : Bool
  Metadata : List (String × String)
  Replacer : Bool
  Logger : Bool
deriving DecidableEq, Repr

/-- `NewTokenValidatorOptions`: all fields at their zero values (the Go
literal only names two of the flags, both set to `false`). -/
def NewTokenValidatorOptions : TokenValidatorOptions :=
  { ValidateSourceAddress := false
    SourceAddress := ""
    ValidateBearerHeader := false
    ValidateMethodPath := false
    ValidateAccessListPathClaim := false
    ValidateAllowMatchAll := false
    Metadata := []
    Replacer := false
    Logger := false }

/-- `TokenValidatorOptions.Clone`: copy the five validation flags and the
logger, allocate a fresh empty metadata map, and leave the remaining
fields (`SourceAddress`, `Replacer`) at their zero values. -/
def TokenValidatorOptions.Clone (opts : TokenValidatorOptions) :
    TokenValidatorOptions :=
  { ValidateSourceAddress := opts.ValidateSourceAddress
    SourceAddress := ""
    ValidateBearerHeader := opts.ValidateBearerHeader
    ValidateMethodPath := opts.ValidateMethodPath
    ValidateAccessListPathClaim := opts.ValidateAccessListPathClaim
    ValidateAllowMatchAll := opts.ValidateAllowMatchAll
    Metadata := []
    Replacer := false
    Logger := opts.Logger }

/-- Write one metadata entry of an options value (the only mutation the
spec contemplates on a cloned options value); in this pure embedding a
mutation builds a new value, so aliasing questions become questions about
which record the update is applied to. -/
def TokenValidatorOptions.metadataSet (opts : TokenValidatorOptions)
    (k v : String) : TokenValidatorOptions :=
  { opts with Metadata := mapSet opts.Metadata k v }

/-- An access-list rule as the parser builds it (`AccessListEntry`):
action, claim, claim values, HTTP methods, path. -/
structure AccessListEntry where
  Action : String
  Claim : String
  Values : List String
  Methods : List String
  Path : String
deriving DecidableEq, Repr

/-- Modelled from the spec: `NewAccessListEntry` lives outside `src/`; a
fresh rule has every field empty. -/
def NewAccessListEntry : AccessListEntry :=
  { Action := "", Claim := "", Values := [], Methods := [], Path := "" }

/-- Modelled from the spec: `AccessListEntry.Allow` sets the action. -/
def AccessListEntry.Allow (e : AccessListEntry) : AccessListEntry :=
  { e with Action := "allow" }

/-- Modelled from the spec: `AccessListEntry.Deny` sets the action. -/
def AccessListEntry.Deny (e : AccessListEntry) : AccessListEntry :=
  { e with Action := "deny" }

/-- Modelled from the spec: `AccessListEntry.SetClaim` lives outside
`src/`; the spec's error taxonomy lists an empty claim as
ACLMisconfigured, so an empty claim name is rejected and any other claim
name is stored. -/
def AccessListEntry.SetClaim (e : AccessListEntry) (s : String) :
    Except String AccessListEntry :=
  if s = "" then .error "empty claim value"
  else .ok { e with Claim := s }

/-- Modelled from the spec: `AccessListEntry.AddValue` lives outside
`src/`; an empty claim value is rejected (the rule needs real values to
OR-match), any other value is appended. -/
def AccessListEntry.AddValue (e : AccessListEntry) (s : String) :
    Except String AccessListEntry :=
  if s = "" then .error "empty value"
  else .ok { e with Values := e.Values ++ [s] }

/-- Modelled from the spec: `AccessListEntry.AddMethod` lives outside
`src/`; the configuration surface documents `with
<get|post|put|patch|delete|all>`, so exactly those methods are accepted
and appended. -/
def AccessListEntry.AddMethod (e : AccessListEntry) (s : String) :
    Except String AccessListEntry :=
  if s = "get" ∨ s = "post" ∨ s = "put" ∨ s = "patch" ∨ s = "delete" ∨ s = "all"
  then .ok { e with Methods := e.Methods ++ [s] }
  else .error "unsupported method"

/-- Modelled from the spec: `AccessListEntry.SetPath` lives outside
`src/`; the spec treats an empty path as "match any" (path unset), so
setting an empty path is rejected as misconfiguration and any other path
is stored. -/
def AccessListEntry.SetPath (e : AccessListEntry) (s : String) :
    Except String AccessListEntry :=
  if s = "" then .error "empty path"
  else .ok { e with Path := s }

/-- The provider configuration assembled by `parseCaddyfileTokenValidator`
(`AuthProvider`), restricted to the fields that function writes. Trusted
token configurations are kept as the property lists the parser collects
(the Go detour through JSON into `CommonTokenConfig` is an external
serialisation round-trip). -/
structure AuthProvider where
  PrimaryInstance : Bool
  Context : String
  TrustedTokens : List (List (String × String))
  AccessList : List AccessListEntry
  AuthURLPath : String
  AuthRedirectQueryDisabled : Bool
  PassClaimsWithHeaders : Bool
  ForbiddenURL : String
  ValidateMethodPath : Bool
  ValidateAccessListPathClaim : Bool
  TokenValidatorOptions : Option TokenValidatorOptions
deriving DecidableEq, Repr

/-- The provider value `parseCaddyfileTokenValidator` starts from. -/
def initialProvider : AuthProvider :=
  { PrimaryInstance := false
    Context := "default"
    TrustedTokens := []
    AccessList := []
    AuthURLPath := ""
    AuthRedirectQueryDisabled := false
    PassClaimsWithHeaders := false
    ForbiddenURL := ""
    ValidateMethodPath := false
    ValidateAccessListPathClaim := false
    TokenValidatorOptions := none }

/-- One root directive of a `jwt { ... }` block, as the Caddyfile helper
delivers it to the switch in `parseCaddyfileTokenValidator`: the directive
name selects the constructor, its payload is the remaining arguments (for
`trusted_tokens`, the nested sub-blocks as sub-directive name plus
property pairs — the helper guarantees each property has a value). -/
inductive Directive where
  | primary (args : List String)
  | context (args : List String)
  | authURL (args : List String)
  | trustedTokens (blocks : List (String × List (String × String)))
  | allowDeny (isAllow : Bool) (args : List String)
  | disable (args : List String)
  | validate (args : List String)
  | optionDir (args : List String)
  | enable (args : List String)
  | defaultDir (args : List String)
  | forbidden (args : List String)
  | unknown (name : String)
deriving DecidableEq, Repr

/-- `isEnabledArg`. -/
def isEnabledArg (s : String) : Bool :=
  s == "yes" || s == "true" || s == "on"

/-- `isSwitchArg`. -/
def isSwitchArg (s : String) : Bool :=
  s == "yes" || s == "true" || s == "on" ||
  s == "no" || s == "false" || s == "off"

/-- Argument-consumption mode of the `allow`/`deny` loop (the Go `mode`
string, which only ever holds `"roles"`, `"method"` or `"path"`). -/
inductive AclMode where
  | roles
  | method
  | path
deriving DecidableEq, Repr

/-- The `for i, arg := range args` loop of the `allow`/`deny` case, after
its first iteration consumed the claim name: `with` and `to` switch the
mode, other arguments are consumed as claim values, HTTP methods (also
setting `ValidateMethodPath`), or the rule path — where a second path is a
hard error. The final `Nat` is a ghost counter of successful path
assignments, threaded for verification only. -/
def aclLoop (rootDirective : String) :
    List String → AclMode → AccessListEntry → AuthProvider → Nat →
    Except String (AccessListEntry × AuthProvider × Nat)
  | [], _, e, p, n => .ok (e, p, n)
  | arg :: rest, mode, e, p, n =>
    if arg = "with" then aclLoop rootDirective rest .method e p n
    else if arg = "to" then aclLoop rootDirective rest .path e p n
    else
      match mode with
      | .roles =>
        match e.AddValue arg with
        | .error msg =>
          .error (rootDirective ++ " argument claim value " ++ arg ++ " error: " ++ msg)
        | .ok e2 => aclLoop rootDirective rest .roles e2 p n
      | .method =>
        match e.AddMethod arg with
        | .error msg =>
          .error (rootDirective ++ " argument http method " ++ arg ++ " error: " ++ msg)
        | .ok e2 =>
          aclLoop rootDirective rest .method e2 { p with ValidateMethodPath := true } n
      | .path =>
        if e.Path ≠ "" then
          .error (rootDirective ++ " argument http path " ++ arg ++ " is already set")
        else
          match e.SetPath arg with
          | .error msg =>
            .error (rootDirective ++ " argument http path " ++ arg ++ " error: " ++ msg)
          | .ok e2 =>
            aclLoop rootDirective rest .path e2 { p with ValidateMethodPath := true } (n + 1)

/-- The body of the `allow`/`deny` case after its argument-count guards:
set the claim from the first argument on the fresh rule `e0`, run the
argument loop over the remaining arguments, and append the finished rule
to the access list. -/
def processAllowDenyTail (rootDirective : String) (e0 : AccessListEntry)
    (claimArg : String) (rest : List String) (p : AuthProvider) :
    Except String AuthProvider :=
  match e0.SetClaim claimArg with
  | .error msg =>
    .error (rootDirective ++ " argument claim key " ++ claimArg ++ " error: " ++ msg)
  | .ok e1 =>
    match aclLoop rootDirective rest .roles e1 p 0 with
    | .error msg => .error msg
    | .ok (e2, p2, _) =>
      .ok { p2 with AccessList := p2.AccessList ++ [e2] }

/-- The `allow`/`deny` case of the directive switch: an empty argument
list and a single argument are the two Go length-check errors, otherwise
build a rule whose action matches the directive and whose claim is the
first argument, run the argument loop, and append the rule. -/
def processAllowDeny (isAllow : Bool) (args : List String)
    (p : AuthProvider) : Except String AuthProvider :=
  let rootDirective := if isAllow then "allow" else "deny"
  let e0 := if isAllow then NewAccessListEntry.Allow else NewAccessListEntry.Deny
  match args with
  | [] => .error (rootDirective ++ " argument has no value")
  | [_] => .error (rootDirective ++ " argument has insufficient values")
  | claimArg :: rest => processAllowDenyTail rootDirective e0 claimArg rest p

/-- State threaded through the directive loop: the provider under
construction and the local `defaultDenyACL` flag (initially `true`). -/
structure ParseState where
  p : AuthProvider
  defaultDenyACL : Bool
deriving DecidableEq, Repr

/-- One iteration of the root-directive switch of
`parseCaddyfileTokenValidator`. -/
def processDirective (st : ParseState) (d : Directive) :
    Except String ParseState :=
  match d with
  | .primary args =>
    match args with
    | [] => .error "primary argument has no value"
    | a :: _ =>
      if !isSwitchArg a then
        .error ("primary argument value of " ++ a ++ " is unsupported")
      else if isEnabledArg a then
        .ok { st with p := { st.p with PrimaryInstance := true } }
      else .ok st
  | .context args =>
    match args with
    | [] => .error "context argument has no value"
    | [a] => .ok { st with p := { st.p with Context := a } }
    | a :: _ => .error ("context argument value of " ++ a ++ " is unsupported")
  | .authURL args =>
    match args with
    | [] => .error "auth_url argument has no value"
    | [a] => .ok { st with p := { st.p with AuthURLPath := a } }
    | a :: _ => .error ("auth_url argument value of " ++ a ++ " is unsupported")
  | .trustedTokens blocks =>
    .ok { st with p :=
      { st.p with TrustedTokens := st.p.TrustedTokens ++ blocks.map (·.2) } }
  | .allowDeny isAllow args =>
    match processAllowDeny isAllow args st.p with
    | .error msg => .error msg
    | .ok p2 => .ok { st with p := p2 }
  | .disable args =>
    match args with
    | [] => .error "disable argument has no value"
    | a :: _ =>
      if a = "auth_redirect_query" then
        .ok { st with p := { st.p with AuthRedirectQueryDisabled := true } }
      else .error ("disable argument " ++ a ++ " is unsupported")
  | .validate args =>
    match args with
    | [] => .error "validate argument has no value"
    | a :: _ =>
      if a = "path_acl" then
        .ok { st with p := { st.p with
          ValidateAccessListPathClaim := true
          ValidateMethodPath := true } }
      else .error ("validate argument " ++ a ++ " is unsupported")
  | .optionDir args =>
    match args with
    | [] => .error "option argument has no value"
    | a :: _ =>
      let opts := match st.p.TokenValidatorOptions with
        | none => NewTokenValidatorOptions
        | some o => o
      if a = "validate_bearer_header" then
        let opts2 := { opts with ValidateBearerHeader := true }
        .ok { st with p := { st.p with TokenValidatorOptions := some opts2 } }
      else .error ("option argument " ++ a ++ " is unsupported")
  | .enable args =>
    if String.intercalate " " args = "claim headers" then
      .ok { st with p := { st.p with PassClaimsWithHeaders := true } }
    else .error ("unsupported directive for enable: " ++ String.intercalate " " args)
  | .defaultDir args =>
    match args with
    | [] => .error "default argument has no value"
    | a :: _ =>
      if a = "allow" then .ok { st with defaultDenyACL := false }
      else .ok st
  | .forbidden args =>
    match args with
    | [] => .error "forbidden argument has no value"
    | a :: _ => .ok { st with p := { st.p with ForbiddenURL := a } }
  | .unknown name =>
    .error ("unsupported root directive: " ++ name)

/-- The directive loop of `parseCaddyfileTokenValidator`. -/
def processDirectives : List Directive → ParseState →
    Except String ParseState
  | [], st => .ok st
  | d :: rest, st =>
    match processDirective st d with
    | .error msg => .error msg
    | .ok st2 => processDirectives rest st2

/-- The catch-all rule `parseCaddyfileTokenValidator` appends when the
default policy was switched to allow. -/
def catchAllEntry : AccessListEntry :=
  { Action := "allow", Claim := "roles", Values := ["any"], Methods := [], Path := "" }

/-- The checks after the directive loop of `parseCaddyfileTokenValidator`:
require a non-empty context, and append the catch-all allow-any rule
exactly when `defaultDenyACL` was cleared. -/
def finalizeParse (st : ParseState) : Except String AuthProvider :=
  if st.p.Context = "" then .error "context directive must not be empty"
  else if st.defaultDenyACL then .ok st.p
  else .ok { st.p with AccessList := st.p.AccessList ++ [catchAllEntry] }

/-- `parseCaddyfileTokenValidator` over the block's directive list: run
the switch over every directive, then the final checks. -/
def parseCaddyfileTokenValidator (ds : List Directive) :
    Except String AuthProvider :=
  match processDirectives ds { p := initialProvider, defaultDenyACL := true } with
  | .error msg => .error msg
  | .ok st => finalizeParse st

/-- Decidable form of "the directive list contains a `default` directive
whose consumed argument is `allow`". -/
def isDefaultAllowDirective : Directive → Bool
  | .defaultDir (a :: _) => a == "allow"
  | _ => false

/-- A `default allow` directive occurs somewhere in the block. -/
def hasDefaultAllow (ds : List Directive) : Bool :=
  ds.any isDefaultAllowDirective

theorem fetchKeysLoop_invalid_any :
    ∀ (keys : List JwksKey) (acc : List (String × KeyMaterial)),
    (∃ k ∈ keys, k.validateErr ≠ none) →
    ∃ e, fetchKeysLoop keys acc = .error (.jwksInvalidKey e) := by
  intro keys
  induction keys with
  | nil => intro acc h; simp at h
  | cons k rest ih =>
    intro acc h
    cases hv : k.validateErr with
    | some e => exact ⟨e, by simp [fetchKeysLoop, hv]⟩
    | none =>
      obtain ⟨k2, hk2, hne⟩ := h
      rcases List.mem_cons.mp hk2 with rfl | hk2
      · exact absurd hv hne
      · have h2 := ih (mapSet acc k.KeyID (.rsaPublic k.publicKey)) ⟨k2, hk2, hne⟩
        obtain ⟨e, he⟩ := h2
        exact ⟨e, by simp [fetchKeysLoop, hv, he]⟩

/-- C1: with an RSA-family token (the resolver's documented algorithm
precondition), a header `kid` is looked up exactly — an RSA key under it
is returned as a public key, an absent identifier is a hard
`UnexpectedKeyID` failure with no fallback to `"0"` (the store is
arbitrary, so it may well hold a key under `"0"`); with no `kid`, the
reserved default identifier `"0"` is used, and `NoRSAKeyFound` is returned
when no RSA key is stored under it. -/
theorem rsa_providekey_kid_exact (b : RSAKeyTokenBackend) (t : Token)
    (a : String) (hm : t.method = .rsa a) :
    (∀ k, t.kid = some k →
      ((b.secrets.lookup k = none →
         b.ProvideKey t = .error .unexpectedKID) ∧
       (∀ key, b.secrets.lookup k = some (.rsaPublic key) →
         b.ProvideKey t = .ok (.rsaPub key)) ∧
       (∀ key, b.secrets.lookup k = some (.rsaPrivate key) →
         b.ProvideKey t = .ok (.rsaPub key.publicKey)))) ∧
    (t.kid = none →
      ((∀ key, b.secrets.lookup defaultKeyID = some (.rsaPublic key) →
         b.ProvideKey t = .ok (.rsaPub key)) ∧
       (∀ key, b.secrets.lookup defaultKeyID = some (.rsaPrivate key) →
         b.ProvideKey t = .ok (.rsaPub key.publicKey)) ∧
       ((b.secrets.lookup defaultKeyID = none ∨
         b.secrets.lookup defaultKeyID = some .other) →
         b.ProvideKey t = .error .noRSAKeyFound))) := by
  constructor
  · intro k hk
    refine ⟨?_, ?_, ?_⟩
    · intro hl
      simp [RSAKeyTokenBackend.ProvideKey, hm, hk, hl]
    · intro key hl
      simp [RSAKeyTokenBackend.ProvideKey, hm, hk, hl]
    · intro key hl
      simp [RSAKeyTokenBackend.ProvideKey, hm, hk, hl]
  · intro hk
    refine ⟨?_, ?_, ?_⟩
    · intro key hl
      simp [RSAKeyTokenBackend.ProvideKey, hm, hk, hl]
    · intro key hl
      simp [RSAKeyTokenBackend.ProvideKey, hm, hk, hl]
    · rintro (hl | hl) <;> simp [RSAKeyTokenBackend.ProvideKey, hm, hk, hl]

/-- Witness for C1: a store holding only the default key, a token naming
the absent identifier `k1` fails with `UnexpectedKeyID` (no fallback), and
without a `kid` the default key's public component is returned. -/
theorem rsa_providekey_kid_exact_witness :
    RSAKeyTokenBackend.ProvideKey ⟨[("0", .rsaPrivate ⟨⟨5, 3⟩, 7⟩)]⟩
      ⟨.rsa "RS256", some "RS256", some "k1"⟩ = .error .unexpectedKID ∧
    RSAKeyTokenBackend.ProvideKey ⟨[("0", .rsaPrivate ⟨⟨5, 3⟩, 7⟩)]⟩
      ⟨.rsa "RS256", some "RS256", none⟩ = .ok (.rsaPub ⟨5, 3⟩) :=
  ⟨((rsa_providekey_kid_exact ⟨[("0", .rsaPrivate ⟨⟨5, 3⟩, 7⟩)]⟩
      ⟨.rsa "RS256", some "RS256", some "k1"⟩ "RS256" rfl).1 "k1" rfl).1 rfl,
   ((rsa_providekey_kid_exact ⟨[("0", .rsaPrivate ⟨⟨5, 3⟩, 7⟩)]⟩
      ⟨.rsa "RS256", some "RS256", none⟩ "RS256" rfl).2 rfl).2.1 ⟨⟨5, 3⟩, 7⟩ rfl⟩

/-- C2: each resolver rejects a signing method outside its algorithm
family with `UnexpectedSigningMethod` before any key material is read or
returned — the secret-key resolver fails every non-HMAC method, the RSA
resolver fails every non-RSA method, and in particular an HMAC-signed
token presented to the RSA resolver always yields
`UnexpectedSigningMethod` and never a `SignatureInvalid`-class error. -/
theorem providekey_rejects_mismatched_family (sb : SecretKeyTokenBackend)
    (rb : RSAKeyTokenBackend) (t : Token) :
    ((∀ a, t.method ≠ .hmac a) →
      sb.ProvideKey t = .error (.unexpectedSigningMethod "HS" t.alg)) ∧
    ((∀ a, t.method ≠ .rsa a) →
      rb.ProvideKey t = .error (.unexpectedSigningMethod "RS" t.alg)) ∧
    (∀ a, t.method = .hmac a →
      rb.ProvideKey t = .error (.unexpectedSigningMethod "RS" t.alg) ∧
      rb.ProvideKey t ≠ .error .signatureInvalid) := by
  refine ⟨?_, ?_, ?_⟩
  · intro h
    cases hm : t.method with
    | hmac a => exact absurd hm (h a)
    | rsa a => simp [SecretKeyTokenBackend.ProvideKey, hm]
    | other a => simp [SecretKeyTokenBackend.ProvideKey, hm]
  · intro h
    cases hm : t.method with
    | rsa a => exact absurd hm (h a)
    | hmac a => simp [RSAKeyTokenBackend.ProvideKey, hm]
    | other a => simp [RSAKeyTokenBackend.ProvideKey, hm]
  · intro a hm
    constructor
    · simp [RSAKeyTokenBackend.ProvideKey, hm]
    · simp [RSAKeyTokenBackend.ProvideKey, hm]

/-- Witness for C2: an RSA-signed token hitting the secret resolver and an
HMAC-signed token hitting the RSA resolver both fail with
`UnexpectedSigningMethod`, the latter never with `SignatureInvalid`. -/
theorem providekey_rejects_mismatched_family_witness :
    SecretKeyTokenBackend.ProvideKey ⟨[1, 2, 3]⟩
      ⟨.rsa "RS256", some "RS256", none⟩ =
      .error (.unexpectedSigningMethod "HS" (some "RS256")) ∧
    RSAKeyTokenBackend.ProvideKey ⟨[("0", .rsaPublic ⟨5, 3⟩)]⟩
      ⟨.hmac "HS256", some "HS256", none⟩ =
      .error (.unexpectedSigningMethod "RS" (some "HS256")) ∧
    RSAKeyTokenBackend.ProvideKey ⟨[("0", .rsaPublic ⟨5, 3⟩)]⟩
      ⟨.hmac "HS256", some "HS256", none⟩ ≠ .error .signatureInvalid :=
  ⟨(providekey_rejects_mismatched_family ⟨[1, 2, 3]⟩ ⟨[("0", .rsaPublic ⟨5, 3⟩)]⟩
      ⟨.rsa "RS256", some "RS256", none⟩).1 (fun a h => by cases h),
   ((providekey_rejects_mismatched_family ⟨[1, 2, 3]⟩ ⟨[("0", .rsaPublic ⟨5, 3⟩)]⟩
      ⟨.hmac "HS256", some "HS256", none⟩).2.2 "HS256" rfl).1,
   ((providekey_rejects_mismatched_family ⟨[1, 2, 3]⟩ ⟨[("0", .rsaPublic ⟨5, 3⟩)]⟩
      ⟨.hmac "HS256", some "HS256", none⟩).2.2 "HS256" rfl).2⟩

/-- C9: whenever the RSA resolver succeeds it returns an RSA public key —
when the matched entry is an RSA private key only its public component is
returned — and a non-RSA entry under the matched `kid` never yields key
material (success is incompatible with it). -/
theorem rsa_providekey_only_public (b : RSAKeyTokenBackend) (t : Token)
    (v : KeyValue) (h : b.ProvideKey t = .ok v) :
    (∃ k, v = .rsaPub k) ∧
    (∀ kid key, t.kid = some kid →
      b.secrets.lookup kid = some (.rsaPrivate key) →
      v = .rsaPub key.publicKey) ∧
    (∀ kid, t.kid = some kid → b.secrets.lookup kid ≠ some .other) := by
  cases hm : t.method with
  | hmac a => simp [RSAKeyTokenBackend.ProvideKey, hm] at h
  | other a => simp [RSAKeyTokenBackend.ProvideKey, hm] at h
  | rsa a =>
    cases hk : t.kid with
    | some kid =>
      cases hl : b.secrets.lookup kid with
      | none => simp [RSAKeyTokenBackend.ProvideKey, hm, hk, hl] at h
      | some km =>
        cases km with
        | rsaPrivate key =>
          simp only [RSAKeyTokenBackend.ProvideKey, hm, hk, hl] at h
          cases h
          refine ⟨⟨key.publicKey, rfl⟩, ?_, ?_⟩
          · intro kid2 key2 hk2 hl2
            cases hk2
            rw [hl] at hl2
            cases hl2
            rfl
          · intro kid2 hk2 hl2
            cases hk2
            rw [hl] at hl2
            cases hl2
        | rsaPublic key =>
          simp only [RSAKeyTokenBackend.ProvideKey, hm, hk, hl] at h
          cases h
          refine ⟨⟨key, rfl⟩, ?_, ?_⟩
          · intro kid2 key2 hk2 hl2
            cases hk2
            rw [hl] at hl2
            cases hl2
          · intro kid2 hk2 hl2
            cases hk2
            rw [hl] at hl2
            cases hl2
        | other => simp [RSAKeyTokenBackend.ProvideKey, hm, hk, hl] at h
    | none =>
      cases hl : b.secrets.lookup defaultKeyID with
      | none => simp [RSAKeyTokenBackend.ProvideKey, hm, hk, hl] at h
      | some km =>
        cases km with
        | rsaPrivate key =>
          simp only [RSAKeyTokenBackend.ProvideKey, hm, hk, hl] at h
          cases h
          refine ⟨⟨key.publicKey, rfl⟩, ?_, ?_⟩
          · intro kid2 key2 hk2 hl2
            cases hk2
          · intro kid2 hk2 hl2
            cases hk2
        | rsaPublic key =>
          simp only [RSAKeyTokenBackend.ProvideKey, hm, hk, hl] at h
          cases h
          refine ⟨⟨key, rfl⟩, ?_, ?_⟩
          · intro kid2 key2 hk2 hl2
            cases hk2
          · intro kid2 hk2 hl2
            cases hk2
        | other => simp [RSAKeyTokenBackend.ProvideKey, hm, hk, hl] at h

/-- Witness for C9: a store holding a private key under `k1`; the token
naming `k1` succeeds and the returned value is exactly the public
component. -/
theorem rsa_providekey_only_public_witness :
    (∃ k, KeyValue.rsaPub ⟨5, 3⟩ = KeyValue.rsaPub k) ∧
    (∀ kid key,
      (Token.mk (.rsa "RS256") (some "RS256") (some "k1")).kid = some kid →
      (RSAKeyTokenBackend.mk [("k1", .rsaPrivate ⟨⟨5, 3⟩, 7⟩)]).secrets.lookup kid =
        some (.rsaPrivate key) →
      KeyValue.rsaPub ⟨5, 3⟩ = KeyValue.rsaPub key.publicKey) ∧
    (∀ kid,
      (Token.mk (.rsa "RS256") (some "RS256") (some "k1")).kid = some kid →
      (RSAKeyTokenBackend.mk [("k1", .rsaPrivate ⟨⟨5, 3⟩, 7⟩)]).secrets.lookup kid ≠
        some .other) :=
  rsa_providekey_only_public ⟨[("k1", .rsaPrivate ⟨⟨5, 3⟩, 7⟩)]⟩
    ⟨.rsa "RS256", some "RS256", some "k1"⟩ (.rsaPub ⟨5, 3⟩) rfl

/-- C10: constructing the symmetric backend fails with the
invalid-secret-length error for every secret shorter than 16 bytes, and
for 16 bytes or more returns a backend storing exactly the input bytes. -/
theorem newsecret_length_check (s : List Nat) :
    (s.length < 16 →
      NewSecretKeyTokenBackend s = .error .invalidSecretLength) ∧
    (16 ≤ s.length →
      NewSecretKeyTokenBackend s = .ok { secret := s }) := by
  constructor
  · intro h
    simp [NewSecretKeyTokenBackend, h]
  · intro h
    simp [NewSecretKeyTokenBackend, Nat.not_lt.mpr h]

/-- Witness for C10: a 15-byte secret is rejected, a 16-byte secret is
accepted and stored unchanged. -/
theorem newsecret_length_check_witness :
    NewSecretKeyTokenBackend (List.replicate 15 7) =
      .error .invalidSecretLength ∧
    NewSecretKeyTokenBackend (List.replicate 16 7) =
      .ok { secret := List.replicate 16 7 } :=
  ⟨(newsecret_length_check (List.replicate 15 7)).1 (by decide),
   (newsecret_length_check (List.replicate 16 7)).2 (by decide)⟩

/-- C7: a document without a top-level `keys` field fails with the
missing-keys-field error, and a document whose `keys` field parses to the
empty key list fails with the empty-key-set error; neither returns a
store. -/
theorem fetchkeys_rejects_empty_inputs :
    FetchKeysURL .noKeysField = .error .jwksResponseKeysNotFound ∧
    FetchKeysURL (.keysList []) = .error .jwksKeysNotFound := by
  constructor <;> rfl

/-- C3: key-set import is all-or-nothing — any document whose key list
contains at least one entry failing validation makes `FetchKeysURL` return
an `InvalidKey` failure, and no key store is returned, however many other
entries are valid. -/
theorem fetchkeys_all_or_nothing (keys : List JwksKey)
    (h : ∃ k ∈ keys, k.validateErr ≠ none) :
    (∃ e, FetchKeysURL (.keysList keys) = .error (.jwksInvalidKey e)) ∧
    (∀ m, FetchKeysURL (.keysList keys) ≠ .ok m) := by
  have hne : keys ≠ [] := by
    rintro rfl
    simp at h
  have hlen : ¬keys.length < 1 := by
    cases keys with
    | nil => exact absurd rfl hne
    | cons k rest => simp
  obtain ⟨e, he⟩ := fetchKeysLoop_invalid_any keys [] h
  constructor
  · exact ⟨e, by simp [FetchKeysURL, hlen, he]⟩
  · intro m
    simp [FetchKeysURL, hlen, he]

/-- Witness for C3: two valid keys around one invalid entry fail the
whole import with `InvalidKey`, and no store of any shape is produced. -/
theorem fetchkeys_all_or_nothing_witness :
    (∃ e, FetchKeysURL (.keysList
      [⟨"a", none, ⟨1, 1⟩⟩, ⟨"b", some "bad use", ⟨2, 2⟩⟩, ⟨"c", none, ⟨3, 3⟩⟩]) =
      .error (.jwksInvalidKey e)) ∧
    (∀ m, FetchKeysURL (.keysList
      [⟨"a", none, ⟨1, 1⟩⟩, ⟨"b", some "bad use", ⟨2, 2⟩⟩, ⟨"c", none, ⟨3, 3⟩⟩]) ≠
      .ok m) :=
  fetchkeys_all_or_nothing
    [⟨"a", none, ⟨1, 1⟩⟩, ⟨"b", some "bad use", ⟨2, 2⟩⟩, ⟨"c", none, ⟨3, 3⟩⟩]
    ⟨⟨"b", some "bad use", ⟨2, 2⟩⟩, by simp, by simp⟩

theorem SetClaim_ok_fields (e e2 : AccessListEntry) (s : String)
    (h : e.SetClaim s = .ok e2) :
    s ≠ "" ∧ e2.Claim = s ∧ e2.Action = e.Action ∧ e2.Values = e.Values ∧
    e2.Path = e.Path := by
  unfold AccessListEntry.SetClaim at h
  split at h
  · exact Except.noConfusion h
  · cases h
    exact ⟨by assumption, rfl, rfl, rfl, rfl⟩

theorem AddValue_ok_fields (e e2 : AccessListEntry) (s : String)
    (h : e.AddValue s = .ok e2) :
    e2.Claim = e.Claim ∧ e2.Action = e.Action ∧
    e2.Values = e.Values ++ [s] ∧ e2.Path = e.Path := by
  unfold AccessListEntry.AddValue at h
  split at h
  · exact Except.noConfusion h
  · cases h
    exact ⟨rfl, rfl, rfl, rfl⟩

theorem AddMethod_ok_fields (e e2 : AccessListEntry) (s : String)
    (h : e.AddMethod s = .ok e2) :
    e2.Claim = e.Claim ∧ e2.Action = e.Action ∧
    e2.Values = e.Values ∧ e2.Path = e.Path := by
  unfold AccessListEntry.AddMethod at h
  split at h
  · cases h
    exact ⟨rfl, rfl, rfl, rfl⟩
  · exact Except.noConfusion h

theorem SetPath_ok_fields (e e2 : AccessListEntry) (s : String)
    (h : e.SetPath s = .ok e2) :
    s ≠ "" ∧ e2.Path = s ∧ e2.Claim = e.Claim ∧ e2.Action = e.Action ∧
    e2.Values = e.Values := by
  unfold AccessListEntry.SetPath at h
  split at h
  · exact Except.noConfusion h
  · cases h
    exact ⟨by assumption, rfl, rfl, rfl, rfl⟩

theorem aclLoop_ok_spec (rd : String) :
    ∀ (args : List String) (mode : AclMode) (e : AccessListEntry)
      (p : AuthProvider) (n : Nat) (e2 : AccessListEntry)
      (p2 : AuthProvider) (n2 : Nat),
    aclLoop rd args mode e p n = .ok (e2, p2, n2) →
    e2.Claim = e.Claim ∧ e2.Action = e.Action ∧
    p2.AccessList = p.AccessList ∧
    (e.Path ≠ "" → e2.Path = e.Path ∧ n2 = n) ∧
    (e.Path = "" → n2 ≤ n + 1) ∧
    (mode = .roles → "with" ∉ args → "to" ∉ args →
      e2.Values = e.Values ++ args) := by
  intro args
  induction args with
  | nil =>
    intro mode e p n e2 p2 n2 h
    simp only [aclLoop] at h
    cases h
    refine ⟨rfl, rfl, rfl, fun _ => ⟨rfl, rfl⟩, fun _ => Nat.le_succ n, ?_⟩
    intro _ _ _
    simp
  | cons arg rest ih =>
    intro mode e p n e2 p2 n2 h
    simp only [aclLoop] at h
    by_cases hw : arg = "with"
    · rw [if_pos hw] at h
      have h2 := ih .method e p n e2 p2 n2 h
      refine ⟨h2.1, h2.2.1, h2.2.2.1, h2.2.2.2.1, h2.2.2.2.2.1, ?_⟩
      intro _ hnw _
      exact absurd (by rw [hw]; exact List.mem_cons_self _ _) hnw
    · rw [if_neg hw] at h
      by_cases ht : arg = "to"
      · rw [if_pos ht] at h
        have h2 := ih .path e p n e2 p2 n2 h
        refine ⟨h2.1, h2.2.1, h2.2.2.1, h2.2.2.2.1, h2.2.2.2.2.1, ?_⟩
        intro _ _ hnt
        exact absurd (by rw [ht]; exact List.mem_cons_self _ _) hnt
      · rw [if_neg ht] at h
        cases mode with
        | roles =>
          cases hv : e.AddValue arg with
          | error msg =>
            rw [hv] at h
            exact Except.noConfusion h
          | ok e3 =>
            rw [hv] at h
            have hf := AddValue_ok_fields e e3 arg hv
            have h2 := ih .roles e3 p n e2 p2 n2 h
            refine ⟨h2.1.trans hf.1, h2.2.1.trans hf.2.1, h2.2.2.1, ?_, ?_, ?_⟩
            · intro hp
              have := h2.2.2.2.1 (by rw [hf.2.2.2]; exact hp)
              exact ⟨this.1.trans hf.2.2.2, this.2⟩
            · intro hp
              exact h2.2.2.2.2.1 (by rw [hf.2.2.2]; exact hp)
            · intro _ hnw hnt
              have hv2 := h2.2.2.2.2.2 rfl
                (fun hmem => hnw (List.mem_cons_of_mem _ hmem))
                (fun hmem => hnt (List.mem_cons_of_mem _ hmem))
              rw [hv2, hf.2.2.1]
              simp
        | method =>
          cases hv : e.AddMethod arg with
          | error msg =>
            rw [hv] at h
            exact Except.noConfusion h
          | ok e3 =>
            rw [hv] at h
            have hf := AddMethod_ok_fields e e3 arg hv
            have h2 := ih .method e3 { p with ValidateMethodPath := true } n e2 p2 n2 h
            refine ⟨h2.1.trans hf.1, h2.2.1.trans hf.2.1, h2.2.2.1, ?_, ?_, ?_⟩
            · intro hp
              have := h2.2.2.2.1 (by rw [hf.2.2.2]; exact hp)
              exact ⟨this.1.trans hf.2.2.2, this.2⟩
            · intro hp
              exact h2.2.2.2.2.1 (by rw [hf.2.2.2]; exact hp)
            · intro hmode
              exact absurd hmode (by simp)
        | path =>
          by_cases hp : e.Path = ""
          · rw [if_neg (by simp [hp])] at h
            cases hv : e.SetPath arg with
            | error msg =>
              rw [hv] at h
              exact Except.noConfusion h
            | ok e3 =>
              rw [hv] at h
              have hf := SetPath_ok_fields e e3 arg hv
              have h2 := ih .path e3 { p with ValidateMethodPath := true } (n + 1) e2 p2 n2 h
              have hp3 : e3.Path ≠ "" := by rw [hf.2.1]; exact hf.1
              refine ⟨h2.1.trans hf.2.2.1, h2.2.1.trans hf.2.2.2.1, h2.2.2.1, ?_, ?_, ?_⟩
              · intro hpe
                exact absurd hp hpe
              · intro _
                have := h2.2.2.2.1 hp3
                omega
              · intro hmode
                exact absurd hmode (by simp)
          · rw [if_pos (by simp [hp])] at h
            exact Except.noConfusion h

/-- C6: a rule path may be set at most once — when the argument loop meets
a path argument while the rule's path is already non-empty, it fails with
the already-set configuration error and constructs no rule; and any
accepted run of the loop starting from an unset path performs at most one
path assignment (the ghost counter of successful `SetPath` calls ends at
most one). -/
theorem acl_path_set_at_most_once :
    (∀ (rd a : String) (rest : List String) (e : AccessListEntry)
       (p : AuthProvider) (n : Nat),
      a ≠ "with" → a ≠ "to" → e.Path ≠ "" →
      aclLoop rd (a :: rest) .path e p n =
        .error (rd ++ " argument http path " ++ a ++ " is already set")) ∧
    (∀ (rd : String) (args : List String) (e : AccessListEntry)
       (p : AuthProvider) (e2 : AccessListEntry) (p2 : AuthProvider)
       (n2 : Nat),
      aclLoop rd args .path e p 0 = .ok (e2, p2, n2) →
      e.Path = "" → n2 ≤ 1) := by
  constructor
  · intro rd a rest e p n hw ht hp
    simp only [aclLoop]
    rw [if_neg hw, if_neg ht, if_pos hp]
  · intro rd args e p e2 p2 n2 h hp
    exact (aclLoop_ok_spec rd args .path e p 0 e2 p2 n2 h).2.2.2.2.1 hp

/-- Witness for C6: with the path already set to `/a`, the argument `/b`
in path mode is a hard error; and a run that sets the path once ends with
the assignment counter at one. -/
theorem acl_path_set_at_most_once_witness :
    aclLoop "allow" ["/b"] .path
      { Action := "allow", Claim := "roles", Values := ["admin"],
        Methods := [], Path := "/a" } initialProvider 0 =
      .error "allow argument http path /b is already set" ∧
    (1 : Nat) ≤ 1 :=
  ⟨acl_path_set_at_most_once.1 "allow" "/b" []
      { Action := "allow", Claim := "roles", Values := ["admin"],
        Methods := [], Path := "/a" } initialProvider 0
      (by decide) (by decide) (by decide),
   acl_path_set_at_most_once.2 "allow" ["/a"]
      { Action := "allow", Claim := "roles", Values := ["admin"],
        Methods := [], Path := "" } initialProvider
      { Action := "allow", Claim := "roles", Values := ["admin"],
        Methods := [], Path := "/a" }
      { initialProvider with ValidateMethodPath := true } 1 rfl rfl⟩

/-- Counterexample for C5: the directive `allow roles with get` passes the
argument-count check (two arguments), consumes `get` as an HTTP method,
and is accepted with an empty values list — the parser appends a rule
whose `Values` is `[]`. -/
theorem acl_values_nonempty_counterexample :
    parseCaddyfileTokenValidator [.allowDeny true ["roles", "with", "get"]] =
      .ok { PrimaryInstance := false
            Context := "default"
            TrustedTokens := []
            AccessList := [{ Action := "allow", Claim := "roles",
                             Values := [], Methods := ["get"], Path := "" }]
            AuthURLPath := ""
            AuthRedirectQueryDisabled := false
            PassClaimsWithHeaders := false
            ForbiddenURL := ""
            ValidateMethodPath := true
            ValidateAccessListPathClaim := false
            TokenValidatorOptions := none } := rfl

/-- C5 as amended: every accepted `allow`/`deny` directive appends exactly
one rule, its claim is non-empty, and — when none of the arguments is the
mode keyword `with` or `to` — its values list is non-empty; a directive
whose remaining arguments are all consumed as method or path specifiers
may leave the values list empty. -/
theorem processAllowDenyTail_ok (rootDirective : String)
    (e0 : AccessListEntry) (claimArg : String) (rest : List String)
    (p p2 : AuthProvider)
    (h : processAllowDenyTail rootDirective e0 claimArg rest p = .ok p2) :
    ∃ e, p2.AccessList = p.AccessList ++ [e] ∧ e.Claim = claimArg ∧
      claimArg ≠ "" ∧
      ("with" ∉ rest → "to" ∉ rest → e.Values = e0.Values ++ rest) := by
  unfold processAllowDenyTail at h
  split at h
  · exact Except.noConfusion h
  · rename_i e1 hclaim
    split at h
    · exact Except.noConfusion h
    · rename_i res e2 p2l n2 hloop
      cases h
      have hcf := SetClaim_ok_fields e0 e1 claimArg hclaim
      have hls := aclLoop_ok_spec rootDirective rest .roles e1 p 0 e2 p2l n2 hloop
      refine ⟨e2, ?_, ?_, hcf.1, ?_⟩
      · rw [hls.2.2.1]
      · rw [hls.1, hcf.2.1]
      · intro hnw hnt
        have hv := hls.2.2.2.2.2 rfl hnw hnt
        rw [hv, hcf.2.2.2.1]

theorem processAllowDeny_ok_entry (isAllow : Bool) (args : List String)
    (p p2 : AuthProvider) (h : processAllowDeny isAllow args p = .ok p2) :
    ∃ e, p2.AccessList = p.AccessList ++ [e] ∧ e.Claim ≠ "" ∧
      ("with" ∉ args → "to" ∉ args → e.Values ≠ []) := by
  cases args with
  | nil =>
    cases isAllow <;> exact Except.noConfusion h
  | cons claimArg rest =>
    cases rest with
    | nil =>
      cases isAllow <;> exact Except.noConfusion h
    | cons a2 rest2 =>
      have ht : processAllowDenyTail (if isAllow then "allow" else "deny")
          (if isAllow then NewAccessListEntry.Allow else NewAccessListEntry.Deny)
          claimArg (a2 :: rest2) p = .ok p2 := h
      obtain ⟨e, hacc, hcl, hne, hval⟩ :=
        processAllowDenyTail_ok _ _ claimArg (a2 :: rest2) p p2 ht
      refine ⟨e, hacc, by rw [hcl]; exact hne, ?_⟩
      intro hnw hnt
      have hv := hval (fun hmem => hnw (List.mem_cons_of_mem _ hmem))
        (fun hmem => hnt (List.mem_cons_of_mem _ hmem))
      rw [hv]
      have he0 : (if isAllow then NewAccessListEntry.Allow
          else NewAccessListEntry.Deny).Values = [] := by
        cases isAllow <;> rfl
      rw [he0]
      simp

/-- Witness for C5 (amended): `allow roles admin editor` appends one rule
with claim `roles` and non-empty values. -/
theorem processAllowDeny_ok_entry_witness :
    ∃ e, ({ initialProvider with
        AccessList := [{ Action := "allow", Claim := "roles",
                         Values := ["admin", "editor"], Methods := [],
                         Path := "" }] } : AuthProvider).AccessList =
      initialProvider.AccessList ++ [e] ∧ e.Claim ≠ "" ∧
      ("with" ∉ ["roles", "admin", "editor"] →
       "to" ∉ ["roles", "admin", "editor"] → e.Values ≠ []) :=
  processAllowDeny_ok_entry true ["roles", "admin", "editor"]
    initialProvider
    { initialProvider with
      AccessList := [{ Action := "allow", Claim := "roles",
                       Values := ["admin", "editor"], Methods := [],
                       Path := "" }] } rfl

theorem processDirective_defaultDenyACL (st st2 : ParseState) (d : Directive)
    (h : processDirective st d = .ok st2) :
    st2.defaultDenyACL = (st.defaultDenyACL && !(isDefaultAllowDirective d)) := by
  cases d <;> unfold processDirective at h <;>
    (repeat' split at h) <;>
    (try exact Except.noConfusion h) <;>
    (cases h; simp_all [isDefaultAllowDirective])

theorem processDirectives_defaultDenyACL :
    ∀ (ds : List Directive) (st st2 : ParseState),
    processDirectives ds st = .ok st2 →
    st2.defaultDenyACL = (st.defaultDenyACL && !(hasDefaultAllow ds)) := by
  intro ds
  induction ds with
  | nil =>
    intro st st2 h
    simp only [processDirectives] at h
    cases h
    simp [hasDefaultAllow]
  | cons d rest ih =>
    intro st st2 h
    simp only [processDirectives] at h
    cases hd : processDirective st d with
    | error msg =>
      rw [hd] at h
      exact Except.noConfusion h
    | ok stm =>
      rw [hd] at h
      have h1 := processDirective_defaultDenyACL st stm d hd
      have h2 := ih stm st2 h
      rw [h2, h1]
      simp only [hasDefaultAllow, List.any_cons]
      cases hb : st.defaultDenyACL <;>
        cases hc : isDefaultAllowDirective d <;>
        cases he : List.any rest isDefaultAllowDirective <;>
        simp [hb, hc, he]

/-- C4: whenever the Caddyfile parse succeeds, the resulting access list
is the list built from the directives followed by the catch-all rule
`{action: allow, claim: roles, values: ["any"]}` exactly when a
`default allow` directive was given, and by nothing otherwise. -/
theorem parse_appends_catchall_iff_default_allow (ds : List Directive)
    (p : AuthProvider) (h : parseCaddyfileTokenValidator ds = .ok p) :
    ∃ st, processDirectives ds { p := initialProvider, defaultDenyACL := true } = .ok st ∧
      p.AccessList = st.p.AccessList ++
        (if hasDefaultAllow ds then [catchAllEntry] else []) ∧
      catchAllEntry = { Action := "allow", Claim := "roles",
                        Values := ["any"], Methods := [], Path := "" } := by
  unfold parseCaddyfileTokenValidator at h
  cases hd : processDirectives ds { p := initialProvider, defaultDenyACL := true } with
  | error msg =>
    rw [hd] at h
    exact Except.noConfusion h
  | ok st =>
    rw [hd] at h
    have h2 : finalizeParse st = .ok p := h
    unfold finalizeParse at h2
    refine ⟨st, rfl, ?_, rfl⟩
    have hdd := processDirectives_defaultDenyACL ds _ st hd
    simp only [Bool.true_and] at hdd
    by_cases hctx : st.p.Context = ""
    · rw [if_pos hctx] at h2
      exact Except.noConfusion h2
    · rw [if_neg hctx] at h2
      by_cases hda : hasDefaultAllow ds = true
      · have hfalse : st.defaultDenyACL = false := by rw [hdd, hda]; rfl
        rw [hfalse] at h2
        simp only [Bool.false_eq_true, if_false] at h2
        cases h2
        rw [if_pos hda]
      · have htrue : st.defaultDenyACL = true := by
          rw [hdd]
          simp only [Bool.not_eq_true] at hda
          rw [hda]
          rfl
        rw [htrue] at h2
        simp only [if_true] at h2
        cases h2
        rw [if_neg hda]
        simp

/-- Witness for C4: a block with one `allow` rule and `default allow`
parses to that rule followed by the catch-all; the same block without
`default allow` parses to the rule alone. -/
theorem parse_appends_catchall_iff_default_allow_witness :
    ∃ st, processDirectives
        [Directive.allowDeny true ["roles", "admin"], Directive.defaultDir ["allow"]]
        { p := initialProvider, defaultDenyACL := true } = .ok st ∧
      ({ initialProvider with
          AccessList := [{ Action := "allow", Claim := "roles",
                           Values := ["admin"], Methods := [], Path := "" },
                         catchAllEntry] } : AuthProvider).AccessList =
        st.p.AccessList ++
          (if hasDefaultAllow
            [Directive.allowDeny true ["roles", "admin"], Directive.defaultDir ["allow"]]
            then [catchAllEntry] else []) ∧
      catchAllEntry = { Action := "allow", Claim := "roles",
                        Values := ["any"], Methods := [], Path := "" } :=
  parse_appends_catchall_iff_default_allow
    [Directive.allowDeny true ["roles", "admin"], Directive.defaultDir ["allow"]]
    { initialProvider with
      AccessList := [{ Action := "allow", Claim := "roles",
                       Values := ["admin"], Methods := [], Path := "" },
                     catchAllEntry] } rfl

/-- C8: `Clone` copies the five validation flags, allocates a fresh empty
metadata map — so a write into the clone's metadata yields exactly that
one entry and, whenever the original's metadata is non-empty, the clone's
metadata differs from it — and, the embedding being pure, the call leaves
the original value untouched. -/
theorem clone_flags_and_fresh_metadata (opts : TokenValidatorOptions) :
    ((opts.Clone).ValidateSourceAddress = opts.ValidateSourceAddress ∧
     (opts.Clone).ValidateBearerHeader = opts.ValidateBearerHeader ∧
     (opts.Clone).ValidateMethodPath = opts.ValidateMethodPath ∧
     (opts.Clone).ValidateAccessListPathClaim = opts.ValidateAccessListPathClaim ∧
     (opts.Clone).ValidateAllowMatchAll = opts.ValidateAllowMatchAll) ∧
    (opts.Clone).Metadata = [] ∧
    (∀ k v, ((opts.Clone).metadataSet k v).Metadata = [(k, v)]) ∧
    (opts.Metadata ≠ [] → (opts.Clone).Metadata ≠ opts.Metadata) := by
  refine ⟨⟨rfl, rfl, rfl, rfl, rfl⟩, rfl, ?_, ?_⟩
  · intro k v
    simp [TokenValidatorOptions.metadataSet, TokenValidatorOptions.Clone, mapSet]
  · intro hne heq
    exact hne heq.symm

/-- Witness for C8: cloning an options value carrying metadata yields the
empty map, a write lands alone in the clone, and the clone's metadata is
distinct from the original's. -/
theorem clone_flags_and_fresh_metadata_witness :
    ((({ NewTokenValidatorOptions with
        ValidateBearerHeader := true
        Metadata := [("k0", "v0")] } : TokenValidatorOptions).Clone).ValidateSourceAddress =
      ({ NewTokenValidatorOptions with
        ValidateBearerHeader := true
        Metadata := [("k0", "v0")] } : TokenValidatorOptions).ValidateSourceAddress ∧
     (({ NewTokenValidatorOptions with
        ValidateBearerHeader := true
        Metadata := [("k0", "v0")] } : TokenValidatorOptions).Clone).ValidateBearerHeader =
      ({ NewTokenValidatorOptions with
        ValidateBearerHeader := true
        Metadata := [("k0", "v0")] } : TokenValidatorOptions).ValidateBearerHeader ∧
     (({ NewTokenValidatorOptions with
        ValidateBearerHeader := true
        Metadata := [("k0", "v0")] } : TokenValidatorOptions).Clone).ValidateMethodPath =
      ({ NewTokenValidatorOptions with
        ValidateBearerHeader := true
        Metadata := [("k0", "v0")] } : TokenValidatorOptions).ValidateMethodPath ∧
     (({ NewTokenValidatorOptions with
        ValidateBearerHeader := true
        Metadata := [("k0", "v0")] } : TokenValidatorOptions).Clone).ValidateAccessListPathClaim =
      ({ NewTokenValidatorOptions with
        ValidateBearerHeader := true
        Metadata := [("k0", "v0")] } : TokenValidatorOptions).ValidateAccessListPathClaim ∧
     (({ NewTokenValidatorOptions with
        ValidateBearerHeader := true
        Metadata := [("k0", "v0")] } : TokenValidatorOptions).Clone).ValidateAllowMatchAll =
      ({ NewTokenValidatorOptions with
        ValidateBearerHeader := true
        Metadata := [("k0", "v0")] } : TokenValidatorOptions).ValidateAllowMatchAll) ∧
    (({ NewTokenValidatorOptions with
        ValidateBearerHeader := true
        Metadata := [("k0", "v0")] } : TokenValidatorOptions).Clone).Metadata = [] ∧
    (∀ k v, ((({ NewTokenValidatorOptions with
        ValidateBearerHeader := true
        Metadata := [("k0", "v0")] } : TokenValidatorOptions).Clone).metadataSet k v).Metadata =
      [(k, v)]) ∧
    (({ NewTokenValidatorOptions with
        ValidateBearerHeader := true
        Metadata := [("k0", "v0")] } : TokenValidatorOptions).Metadata ≠ [] →
      (({ NewTokenValidatorOptions with
        ValidateBearerHeader := true
        Metadata := [("k0", "v0")] } : TokenValidatorOptions).Clone).Metadata ≠
      ({ NewTokenValidatorOptions with
        ValidateBearerHeader := true
        Metadata := [("k0", "v0")] } : TokenValidatorOptions).Metadata) :=
  clone_flags_and_fresh_metadata
    { NewTokenValidatorOptions with
      ValidateBearerHeader := true
      Metadata := [("k0", "v0")] }

end CaddyAuthJwt
